import Mathlib

/-!
Shallow embedding of the GitHooks todo API (Cloudflare Workers CRUD service):
the Joi-based validation middleware (src/middleware/validation.js), the D1
persistence layer (src/models/todo.js), the request handlers
(src/handlers/todos.js) and the dispatcher glue (server.js), together with
theorems settling the frozen claims about them.
-/

namespace GitHooks

/-! ## JavaScript-ish values and JSON objects -/

/-- Subset of JavaScript values that can occur in the payloads this API
handles: strings, (integer) numbers, booleans, null, and undefined.
`undef` never arises from JSON parsing but `updateTodo` guards against it. -/
inductive JVal where
  | str (s : String)
  | num (n : Int)
  | bool (b : Bool)
  | null
  | undef
deriving DecidableEq, Repr

/-- A JavaScript object, as an association list of key/value pairs
(the order is the object's key order). -/
abbrev JObj := List (String × JVal)

/-- Keys of an object whose value is not `undefined`; Joi's presence logic
treats a key holding `undefined` the same as an absent key. -/
def presentEntries (o : JObj) : JObj :=
  o.filter (fun kv => !(kv.2 == JVal.undef))

/-- Looks a key up in an object (first binding wins), with an
`undefined`-valued binding reported as absent. -/
def getVal (o : JObj) (k : String) : Option JVal :=
  match o.find? (fun kv => kv.1 == k) with
  | some kv => if kv.2 == JVal.undef then none else some kv.2
  | none => none

/-! ## Number parsing (JavaScript `Number(...)` / `parseInt`, restricted to
the plain decimal forms URL path parameters can take) -/

/-- Numeric value of a decimal digit list, most significant first. -/
def digitsToNat (cs : List Char) : Nat :=
  cs.foldl (fun acc c => acc * 10 + (c.toNat - 48)) 0

/-- Parses an optionally signed run of decimal digits, optionally split by a
single decimal point, as `Number(...)` would. Returns the unscaled integer
value together with the number of fractional digits, so that the numeric
value is `unscaled / 10 ^ scale`; returns `none` on anything that is NaN. -/
def parseJsNumber (s : String) : Option (Int × Nat) :=
  let cs := s.toList
  let sign : Int := if cs.head? = some '-' then -1 else 1
  let rest := if cs.head? = some '-' || cs.head? = some '+' then cs.tail else cs
  let ipart := rest.takeWhile (fun c => !(c == '.'))
  let tail := rest.dropWhile (fun c => !(c == '.'))
  match tail with
  | [] =>
    if ipart ≠ [] && ipart.all Char.isDigit then some (sign * digitsToNat ipart, 0)
    else none
  | '.' :: fpart =>
    if (ipart ≠ [] || fpart ≠ []) && (ipart ++ fpart).all Char.isDigit then
      some (sign * digitsToNat (ipart ++ fpart), fpart.length)
    else none
  | _ => none

/-- JavaScript `parseInt`: optional sign then the leading digit run; `none`
models NaN. -/
def parseIntJs (s : String) : Option Int :=
  let cs := s.toList
  let sign : Int := if cs.head? = some '-' then -1 else 1
  let rest := if cs.head? = some '-' || cs.head? = some '+' then cs.tail else cs
  let ds := rest.takeWhile Char.isDigit
  if ds = [] then none else some (sign * digitsToNat ds)

/-! ## Joi engine, as configured by validation.js

validation.js calls `schema.validate(data, { abortEarly: false })`: every
field is checked in one pass, each violation yields one error detail, and
the middleware maps each detail to `{field, message}` (field is
`detail.path.join('.')`, the empty string for object-level errors). -/

/-- One field-level validation error, as surfaced by the middleware:
`{field, message}`. -/
structure FieldError where
  field : String
  message : String
deriving DecidableEq, Repr

/-- A per-key rule of a Joi object schema: presence requirement (with the
message used when a required key is missing), the check run on a present
value (returning the list of violation messages), and the conversion Joi
applies to a present value. -/
structure FieldSchema where
  key : String
  required : Bool
  requiredMsg : String
  check : JVal → List String
  convert : JVal → JVal

/-- A Joi object schema: declared keys in declaration order, plus an
object-level minimum-key-count rule (`minKeys = 0` meaning none). -/
structure ObjSchema where
  fields : List FieldSchema
  minKeys : Nat
  minMsg : String

/-- Errors contributed by one declared key: the required-message when the
key is absent and required, otherwise the key's check on the present value. -/
def fieldErrors (f : FieldSchema) (o : JObj) : List FieldError :=
  match getVal o f.key with
  | none => if f.required then [⟨f.key, f.requiredMsg⟩] else []
  | some v => (f.check v).map (fun m => ⟨f.key, m⟩)

/-- Keys declared by a schema, in declaration order. -/
def declaredKeys (s : ObjSchema) : List String :=
  s.fields.map (fun f => f.key)

/-- Joi rejects keys not declared by the object schema
(`object.unknown`: `"k" is not allowed`). -/
def unknownKeyErrors (s : ObjSchema) (o : JObj) : List FieldError :=
  (presentEntries o).filterMap (fun kv =>
    if (declaredKeys s).contains kv.1 then none
    else some ⟨kv.1, "\"" ++ kv.1 ++ "\" is not allowed"⟩)

/-- Object-level `min(n)` rule: the error detail has an empty path, so the
middleware surfaces it with `field = ""`. -/
def minKeyErrors (s : ObjSchema) (o : JObj) : List FieldError :=
  if (presentEntries o).length < s.minKeys then [⟨"", s.minMsg⟩] else []

/-- Normalized value returned by a successful Joi validation: the present
entries with each declared key's conversion applied. -/
def normalizeObj (s : ObjSchema) (o : JObj) : JObj :=
  (presentEntries o).map (fun kv =>
    match s.fields.find? (fun f => f.key == kv.1) with
    | some f => (kv.1, f.convert kv.2)
    | none => kv)

/-- `schema.validate(data, { abortEarly: false })`: accumulates every
violation (declared fields in declaration order, then unknown keys, then
the object-level rule) and also produces the normalized value. -/
def validateObj (s : ObjSchema) (o : JObj) : List FieldError × JObj :=
  ((s.fields.map (fun f => fieldErrors f o)).flatten
      ++ unknownKeyErrors s o ++ minKeyErrors s o,
    normalizeObj s o)

/-! ## The three schemas of validation.js -/

/-- Check for `title: Joi.string().min(1).max(200).required()` on a present
value, with the create schema's custom messages. -/
def checkTitleCreate : JVal → List String
  | JVal.str s =>
    if s.length == 0 then ["Title is required"]
    else if s.length > 200 then ["Title must be less than 200 characters"]
    else []
  | _ => ["\"title\" must be a string"]

/-- Check for the update schema's optional `title`, whose `string.empty`
message is "Title cannot be empty". -/
def checkTitleUpdate : JVal → List String
  | JVal.str s =>
    if s.length == 0 then ["Title cannot be empty"]
    else if s.length > 200 then ["Title must be less than 200 characters"]
    else []
  | _ => ["\"title\" must be a string"]

/-- Check for `description: Joi.string().max(1000).allow('')` (both
schemas): the empty string is allowed, only the length cap applies. -/
def checkDescription : JVal → List String
  | JVal.str s =>
    if s.length > 1000 then ["Description must be less than 1000 characters"] else []
  | _ => ["\"description\" must be a string"]

/-- Check for `completed: Joi.boolean()`: booleans pass, and the strings
"true"/"false" (case-insensitively) convert. -/
def checkCompleted : JVal → List String
  | JVal.bool _ => []
  | JVal.str s =>
    if s.toLower == "true" || s.toLower == "false" then []
    else ["\"completed\" must be a boolean"]
  | _ => ["\"completed\" must be a boolean"]

/-- Joi boolean conversion of the strings "true"/"false". -/
def convertCompleted : JVal → JVal
  | JVal.str s =>
    if s.toLower == "true" then JVal.bool true
    else if s.toLower == "false" then JVal.bool false
    else JVal.str s
  | v => v

/-- Numeric value of a payload entry as Joi's number conversion sees it:
numbers pass through, strings go through `Number(...)`, everything else is
NaN. -/
def numValueOf : JVal → Option (Int × Nat)
  | JVal.num n => some (n, 0)
  | JVal.str s => parseJsNumber s
  | _ => none

/-- Check for `id: Joi.number().integer().positive()` on a present value,
with the id schema's custom messages; with `abortEarly: false` the integer
and positivity rules each report independently once the base conversion
succeeded. -/
def checkId (v : JVal) : List String :=
  match numValueOf v with
  | none => ["ID must be a number"]
  | some (u, scale) =>
    (if u % ((10 : Int) ^ scale) == 0 then [] else ["ID must be an integer"])
      ++ (if u > 0 then [] else ["ID must be positive"])

/-- Joi number conversion: a string that parses to an integral number is
replaced by that number. -/
def convertId : JVal → JVal
  | JVal.str s =>
    match parseJsNumber s with
    | some (u, scale) =>
      if u % ((10 : Int) ^ scale) == 0 then JVal.num (u / ((10 : Int) ^ scale))
      else JVal.str s
    | none => JVal.str s
  | v => v

/-- Identity conversion (strings are not converted). -/
def convertNone (v : JVal) : JVal := v

/-- The `title` rule of `todoSchemas.create`. -/
def createTitleField : FieldSchema :=
  { key := "title", required := true, requiredMsg := "\"title\" is required",
    check := checkTitleCreate, convert := convertNone }

/-- The `description` rule of `todoSchemas.create`. -/
def createDescField : FieldSchema :=
  { key := "description", required := false, requiredMsg := "",
    check := checkDescription, convert := convertNone }

/-- `todoSchemas.create` from validation.js. -/
def createSchema : ObjSchema :=
  { fields := [createTitleField, createDescField], minKeys := 0, minMsg := "" }

/-- `todoSchemas.update` from validation.js: three optional fields and
`.min(1)` with the custom `object.min` message. -/
def updateSchema : ObjSchema :=
  { fields :=
      [ { key := "title", required := false, requiredMsg := "",
          check := checkTitleUpdate, convert := convertNone },
        { key := "description", required := false, requiredMsg := "",
          check := checkDescription, convert := convertNone },
        { key := "completed", required := false, requiredMsg := "",
          check := checkCompleted, convert := convertCompleted } ],
    minKeys := 1, minMsg := "At least one field must be provided for update" }

/-- `todoSchemas.id` from validation.js. -/
def idSchema : ObjSchema :=
  { fields :=
      [ { key := "id", required := true, requiredMsg := "ID is required",
          check := checkId, convert := convertId } ],
    minKeys := 0, minMsg := "" }

/-! ## The todo entity and HTTP responses -/

/-- A stored row of the `todos` table: `completed` is kept as the integer
the SQL layer stores (0/1). -/
structure TodoRow where
  id : Int
  title : String
  description : String
  completed : Int
  created_at : Nat
  updated_at : Nat
deriving DecidableEq, Repr

/-- A todo as handed to callers: `completed` is a true boolean. -/
structure Todo where
  id : Int
  title : String
  description : String
  completed : Bool
  created_at : Nat
  updated_at : Nat
deriving DecidableEq, Repr

/-- Payload carried by list/detail responses. -/
inductive EnvData where
  | one (t : Todo)
  | many (ts : List Todo)
deriving DecidableEq, Repr

/-- The uniform JSON response envelope
`{success, data?, error?, message?, count?, details?}`. -/
structure Envelope where
  success : Bool
  data : Option EnvData
  error : Option String
  message : Option String
  count : Option Nat
  details : Option (List FieldError)
deriving DecidableEq, Repr

/-- An HTTP response: status, JSON body (none models a null body), and
header list. -/
structure HttpResponse where
  status : Nat
  body : Option Envelope
  headers : List (String × String)
deriving DecidableEq, Repr

/-- Whether a response carries a header with the given name. -/
def hasHeader (r : HttpResponse) (name : String) : Bool :=
  r.headers.any (fun h => h.1 == name)

/-- The fetch-spec `Response` constructor: a response built from a string
body whose init lacks a Content-Type header gets the default
`text/plain;charset=UTF-8`; a null body gets no Content-Type. -/
def jsResponse (body : Option Envelope) (status : Nat)
    (headers : List (String × String)) : HttpResponse :=
  let hs :=
    match body with
    | some _ =>
      if headers.any (fun h => h.1 == "Content-Type") then headers
      else headers ++ [("Content-Type", "text/plain;charset=UTF-8")]
    | none => headers
  { status := status, body := body, headers := hs }

/-- The explicit header object most responses in this repository pass. -/
def jsonHeaders : List (String × String) := [("Content-Type", "application/json")]

/-! ## Validation middleware (validation.js, `validate`) -/

/-- The `property` argument of `validate`: which part of the request is
validated. -/
inductive Source where
  | body
  | params
  | query
deriving DecidableEq, Repr

/-- An incoming request, as the middleware and handlers see it.
`rawBody = none` models a body whose JSON parse throws. -/
structure Request where
  rawBody : Option JObj
  params : JObj
  query : JObj
  validatedData : Option JObj
  validatedParams : Option JObj
deriving DecidableEq, Repr

/-- Payload the middleware extracts for a given source: the parsed JSON
body (which can fail), the router's path params, or the URL search params. -/
def dataOf (prop : Source) (req : Request) : Option JObj :=
  match prop with
  | Source.body => req.rawBody
  | Source.params => some req.params
  | Source.query => some req.query

/-- The 400 response for accumulated field errors:
`{success:false, error:"Validation failed", details}`. -/
def validationFailedResponse (errs : List FieldError) : HttpResponse :=
  jsResponse (some ⟨false, none, some "Validation failed", none, none, some errs⟩)
    400 jsonHeaders

/-- The 400 response of the middleware's catch branch:
`{success:false, error:"Invalid JSON in request body"}`. -/
def invalidJsonResponse : HttpResponse :=
  jsResponse (some ⟨false, none, some "Invalid JSON in request body", none, none, none⟩)
    400 jsonHeaders

/-- The interceptor produced by `validate(schema, property)`: returns
either a 400 response (stop) or no response together with the request
carrying the attached normalized data (continue the chain). -/
def validate (s : ObjSchema) (prop : Source) (req : Request) :
    Option HttpResponse × Request :=
  match dataOf prop req with
  | none => (some invalidJsonResponse, req)
  | some d =>
    let ev := validateObj s d
    if ev.1.isEmpty then
      match prop with
      | Source.body => (none, { req with validatedData := some ev.2 })
      | _ => (none, { req with validatedParams := some ev.2 })
    else (some (validationFailedResponse ev.1), req)

/-! ## Persistence layer (models/todo.js) -/

/-- `formatTodo`: converts a stored row to a caller-facing todo,
`Boolean(row.completed)` turning the stored integer into a boolean. -/
def formatTodo (row : TodoRow) : Todo :=
  { id := row.id, title := row.title, description := row.description,
    completed := decide (row.completed ≠ 0),
    created_at := row.created_at, updated_at := row.updated_at }

/-- Descending `created_at` order used by every SELECT of this layer. -/
def createdDesc (a b : TodoRow) : Prop := b.created_at ≤ a.created_at

instance : DecidableRel createdDesc := fun a b => Nat.decLe b.created_at a.created_at

instance : IsTotal TodoRow createdDesc :=
  ⟨fun a b => Nat.le_total b.created_at a.created_at⟩

instance : IsTrans TodoRow createdDesc :=
  ⟨fun _ _ _ h1 h2 => Nat.le_trans h2 h1⟩

/-- Result set of `SELECT * FROM todos ... ORDER BY created_at DESC`. -/
def dbSelectOrdered (rows : List TodoRow) : List TodoRow :=
  List.insertionSort createdDesc rows

/-- `getAllTodos(db, completed = null)`: optional completion filter (the
bound query parameter is the integer `completed ? 1 : 0`), ordered by
`created_at` descending, every row formatted. -/
def getAllTodos (rows : List TodoRow) (completed : Option Bool) : List Todo :=
  match completed with
  | none => (dbSelectOrdered rows).map formatTodo
  | some b =>
    let p : Int := if b then 1 else 0
    (dbSelectOrdered (rows.filter (fun r => r.completed == p))).map formatTodo

/-- `getTodoById(db, id)`: first row matching the id, formatted; absence is
a normal `none` return. -/
def getTodoById (rows : List TodoRow) (id : Int) : Option Todo :=
  (rows.find? (fun r => r.id == id)).map formatTodo

/-- Row inserted by `INSERT INTO todos (title, description, completed)
VALUES (?, ?, 0) RETURNING *`: the store assigns the id and both
timestamps. -/
def insertedRow (nextId : Int) (now : Nat) (title : String)
    (description : Option String) : TodoRow :=
  { id := nextId, title := title, description := description.getD "",
    completed := 0, created_at := now, updated_at := now }

/-- `createTodo(db, {title, description = ''})`: inserts with
`completed = 0` and returns the formatted persisted row. -/
def createTodo (nextId : Int) (now : Nat) (title : String)
    (description : Option String) : Todo :=
  formatTodo (insertedRow nextId now title description)

/-- JavaScript truthiness for the values of `JVal` (used by the
`value ? 1 : 0` coercion in `updateTodo`). -/
def jsTruthy : JVal → Bool
  | JVal.str s => !(s == "")
  | JVal.num n => !(n == 0)
  | JVal.bool b => b
  | JVal.null => false
  | JVal.undef => false

/-- The allow-list of updatable fields in `updateTodo`. -/
def allowedFields : List String := ["title", "description", "completed"]

/-- The for-loop of `updateTodo` over `Object.entries(updates)`: keeps the
allow-listed keys whose value is not `undefined`, coercing the truthiness
of a `completed` value to the integer 1/0. -/
def buildUpdate : JObj → JObj
  | [] => []
  | (k, v) :: rest =>
    if allowedFields.contains k && !(v == JVal.undef) then
      (k, if k == "completed" then JVal.num (if jsTruthy v then 1 else 0) else v)
        :: buildUpdate rest
    else buildUpdate rest

/-- Applies one built assignment to a row (the SQL engine's side of
`SET key = ?`). -/
def applyAssign (r : TodoRow) (kv : String × JVal) : TodoRow :=
  match kv with
  | ("title", JVal.str s) => { r with title := s }
  | ("description", JVal.str s) => { r with description := s }
  | ("completed", JVal.num n) => { r with completed := n }
  | _ => r

/-- Applies a built assignment list to a row. -/
def applyAssignments (r : TodoRow) (assigns : JObj) : TodoRow :=
  assigns.foldl applyAssign r

/-- `updateTodo(db, id, updates)`: builds the assignment list, throws
`'No valid fields provided for update'` when it is empty, otherwise runs
`UPDATE ... , updated_at = CURRENT_TIMESTAMP WHERE id = ? RETURNING *` and
formats the returned row; `ok none` is the no-row-matched outcome. -/
def updateTodo (rows : List TodoRow) (now : Nat) (id : Int) (updates : JObj) :
    Except String (Option Todo) :=
  let fields := buildUpdate updates
  if fields.isEmpty then Except.error "No valid fields provided for update"
  else
    match rows.find? (fun r => r.id == id) with
    | none => Except.ok none
    | some r =>
      Except.ok (some (formatTodo { applyAssignments r fields with updated_at := now }))

/-- Number of rows `DELETE FROM todos WHERE id = ?` affects. -/
def deleteChanges (rows : List TodoRow) (id : Int) : Nat :=
  (rows.filter (fun r => r.id == id)).length

/-- `deleteTodo(db, id)`: `result.changes > 0`; a missing id is a normal
`false` return, never a throw. -/
def deleteTodo (rows : List TodoRow) (id : Int) : Bool :=
  deleteChanges rows id > 0

/-- Store state after the DELETE statement ran. -/
def deleteApply (rows : List TodoRow) (id : Int) : List TodoRow :=
  rows.filter (fun r => !(r.id == id))

/-! ## Request handlers (handlers/todos.js) -/

/-- The shared `{success:false, error:"Todo not found"}` 404 response. -/
def todoNotFoundResponse : HttpResponse :=
  jsResponse (some ⟨false, none, some "Todo not found", none, none, none⟩) 404 jsonHeaders

/-- Success branch of `getTodos`: 200 with the todo array and its length. -/
def getTodosSuccessResponse (todos : List Todo) : HttpResponse :=
  jsResponse (some ⟨true, some (EnvData.many todos), none, none, some todos.length, none⟩)
    200 jsonHeaders

/-- Catch branch of `getTodos`. -/
def getTodosFailureResponse : HttpResponse :=
  jsResponse (some ⟨false, none, some "Failed to fetch todos", none, none, none⟩)
    500 jsonHeaders

/-- `getTodos`: reads the optional `completed` query parameter (the string
"true", case-insensitively, means `true`; any other present string means
`false`), lists, and wraps the result. -/
def getTodosHandler (rows : List TodoRow) (completedParam : Option String) :
    HttpResponse :=
  let completed := completedParam.map (fun s => s.toLower == "true")
  getTodosSuccessResponse (getAllTodos rows completed)

/-- Success branch of `getTodo`: 200 with the todo. -/
def getTodoSuccessResponse (t : Todo) : HttpResponse :=
  jsResponse (some ⟨true, some (EnvData.one t), none, none, none, none⟩) 200 jsonHeaders

/-- Catch branch of `getTodo`. -/
def getTodoFailureResponse : HttpResponse :=
  jsResponse (some ⟨false, none, some "Failed to fetch todo", none, none, none⟩)
    500 jsonHeaders

/-- `getTodo` on the lookup outcome: found gives 200, absence gives the
404 envelope. -/
def getTodoHandlerCore (result : Option Todo) : HttpResponse :=
  match result with
  | none => todoNotFoundResponse
  | some t => getTodoSuccessResponse t

/-- Success branch of the create handler: `new Response(body, {status:201})`
with NO headers in the init — only the constructor's text/plain default. -/
def createSuccessResponse (t : Todo) : HttpResponse :=
  jsResponse (some ⟨true, some (EnvData.one t), none, some "Todo created successfully", none, none⟩)
    201 []

/-- Catch branch of the create handler: likewise headerless in the init. -/
def createFailureResponse : HttpResponse :=
  jsResponse (some ⟨false, none, some "Failed to create todo", none, none, none⟩) 500 []

/-- The message of the throw in `updateTodo` that the update handler
singles out. -/
def noValidFieldsMsg : String := "No valid fields provided for update"

/-- `updateTodoHandler` on the persistence outcome: a returned row gives
200 with data and confirmation, absence 404, the specific
no-valid-fields throw 400 surfacing the message, any other throw the 404
fallback `{error:"not found"}`. -/
def updateTodoHandlerCore (outcome : Except String (Option Todo)) : HttpResponse :=
  match outcome with
  | Except.ok (some t) =>
    jsResponse (some ⟨true, some (EnvData.one t), none, some "Todo updated successfully", none, none⟩)
      200 jsonHeaders
  | Except.ok none => todoNotFoundResponse
  | Except.error msg =>
    if msg == noValidFieldsMsg then
      jsResponse (some ⟨false, none, some msg, none, none, none⟩) 400 jsonHeaders
    else
      jsResponse (some ⟨false, none, some "not found", none, none, none⟩) 404 jsonHeaders

/-- `deleteTodoHandler` on the persistence outcome: deletion observed gives
200 with a confirmation and no data, otherwise the 404 envelope. -/
def deleteTodoHandlerCore (deleted : Bool) : HttpResponse :=
  if deleted then
    jsResponse (some ⟨true, none, none, some "Todo deleted successfully", none, none⟩)
      200 jsonHeaders
  else todoNotFoundResponse

/-- Catch branch of the delete handler. -/
def deleteFailureResponse : HttpResponse :=
  jsResponse (some ⟨false, none, some "Failed to delete todo", none, none, none⟩)
    500 jsonHeaders

/-! ## Dispatcher glue (server.js) -/

/-- The CORS header object of server.js. -/
def corsHeaders : List (String × String) :=
  [ ("Access-Control-Allow-Origin", "*"),
    ("Access-Control-Allow-Methods", "GET, POST, PATCH, DELETE, OPTIONS"),
    ("Access-Control-Allow-Headers", "Content-Type") ]

/-- `handleCors` for an OPTIONS request: `new Response(null, {headers:
corsHeaders})`. -/
def corsPreflightResponse : HttpResponse :=
  jsResponse none 200 corsHeaders

/-- The CORS merge in `handleRequest`: when the response lacks
`Access-Control-Allow-Origin`, rebuild it with
`{...originalHeaders, ...corsHeaders}` (a spread, so a name occurring in
both keeps the CORS value; every other original header survives). -/
def mergeCors (r : HttpResponse) : HttpResponse :=
  if hasHeader r "Access-Control-Allow-Origin" then r
  else
    { r with
      headers :=
        r.headers.filter (fun h => !(corsHeaders.any (fun c => c.1 == h.1)))
          ++ corsHeaders }

/-- `errorResponse` (utils/errorResponse.js). -/
def errorResponse (message : String) (status : Nat) : HttpResponse :=
  jsResponse (some ⟨false, none, some message, none, none, none⟩) status jsonHeaders

/-- The id the update/delete handlers compute:
`parseInt(request.params.id)` on the raw path parameter; `none` stands for
NaN, which no row's id ever equals. -/
def handlerId (req : Request) : Option Int :=
  match getVal req.params "id" with
  | some (JVal.str s) => parseIntJs s
  | some (JVal.num n) => some n
  | _ => none

/-- The PATCH `/api/todos/:id` chain of server.js: `validateTodoId`, then
`validateUpdateTodo`, then the update handler. A NaN id (impossible once
id-validation passed) is run with a sentinel below any store-assigned id. -/
def patchChain (rows : List TodoRow) (now : Nat) (req : Request) : HttpResponse :=
  match validate idSchema Source.params req with
  | (some resp, _) => resp
  | (none, req1) =>
    match validate updateSchema Source.body req1 with
    | (some resp, _) => resp
    | (none, req2) =>
      let id := (handlerId req2).getD (-1)
      let updates := req2.validatedData.getD (req2.rawBody.getD [])
      updateTodoHandlerCore (updateTodo rows now id updates)

/-! ## Helpers for the theorems -/

/-- Substring test on char lists used to state "message containing ...". -/
def containsSub (sub : List Char) : List Char → Bool
  | [] => sub.isEmpty
  | c :: rest => sub.isPrefixOf (c :: rest) || containsSub sub rest

/-- Whether `sub` occurs as a contiguous substring of `s`. -/
def strContains (s sub : String) : Bool :=
  containsSub sub.toList s.toList

/-- Whether a response carries the `Content-Type: application/json` header. -/
abbrev hasJsonCT (r : HttpResponse) : Prop :=
  ("Content-Type", "application/json") ∈ r.headers

/-- A concrete todo used by concrete instances in the theorems below. -/
def sampleTodo : Todo :=
  { id := 1, title := "Buy milk", description := "", completed := false,
    created_at := 0, updated_at := 0 }

/-- A title/description of exactly `n` characters. -/
def repChar (n : Nat) : JVal := JVal.str (String.mk (List.replicate n 'a'))

/-! ## C4: boundary behaviour of the schemas -/

/-- C4: a 200-character title passes create-validation and a 201-character
title fails with a message containing "less than 200 characters"; a
1000-character description passes and 1001 fails with a message containing
"less than 1000 characters"; id validation accepts "1" (normalizing it to
the number 1), rejects "abc" with "must be a number", rejects "-1" with
"must be positive", rejects a missing id, and the three failure messages
are pairwise distinguishable. -/
theorem claim_C4_schema_boundaries :
    (validateObj createSchema [("title", repChar 200)]).1 = []
    ∧ (validateObj createSchema [("title", repChar 201)]).1 =
        [⟨"title", "Title must be less than 200 characters"⟩]
    ∧ strContains "Title must be less than 200 characters" "less than 200 characters" = true
    ∧ (validateObj createSchema [("title", JVal.str "Valid"), ("description", repChar 1000)]).1 = []
    ∧ (validateObj createSchema [("title", JVal.str "Valid"), ("description", repChar 1001)]).1 =
        [⟨"description", "Description must be less than 1000 characters"⟩]
    ∧ strContains "Description must be less than 1000 characters" "less than 1000 characters" = true
    ∧ validateObj idSchema [("id", JVal.str "1")] = ([], [("id", JVal.num 1)])
    ∧ (validateObj idSchema [("id", JVal.str "abc")]).1 = [⟨"id", "ID must be a number"⟩]
    ∧ strContains "ID must be a number" "must be a number" = true
    ∧ (validateObj idSchema [("id", JVal.str "-1")]).1 = [⟨"id", "ID must be positive"⟩]
    ∧ strContains "ID must be positive" "must be positive" = true
    ∧ (validateObj idSchema []).1 = [⟨"id", "ID is required"⟩]
    ∧ ("ID must be a number" ≠ "ID must be positive"
        ∧ "ID must be a number" ≠ "ID is required"
        ∧ "ID must be positive" ≠ "ID is required") := by
  set_option maxRecDepth 8192 in decide

/-! ## C9: Content-Type on the API surface -/

/-- C9 counterexample: the create handler's 201 success response and its
500 failure response are built without a Content-Type header in the init,
so even after the dispatcher's CORS merge they do not carry
`Content-Type: application/json` (they carry the constructor's text/plain
default instead). -/
theorem claim_C9_counterexample :
    ¬ hasJsonCT (mergeCors (createSuccessResponse sampleTodo))
    ∧ ¬ hasJsonCT (mergeCors createFailureResponse)
    ∧ (mergeCors (createSuccessResponse sampleTodo)).status = 201
    ∧ (mergeCors createFailureResponse).status = 500
    ∧ ("Content-Type", "text/plain;charset=UTF-8")
        ∈ (mergeCors (createSuccessResponse sampleTodo)).headers := by
  decide

/-- C9 amended: every response of the list/get/update/delete handlers, of
the validation middleware, and of `errorResponse` carries
`Content-Type: application/json`, and the dispatcher's CORS merge preserves
that header; the create handler's 201 and 500 responses and the CORS
preflight response are the exceptions and never carry it. -/
theorem claim_C9_amended_content_type (todos : List Todo) (t : Todo)
    (result : Option Todo) (outcome : Except String (Option Todo))
    (deleted : Bool) (errs : List FieldError) (msg : String) (st : Nat)
    (r : HttpResponse) :
    hasJsonCT (getTodosSuccessResponse todos)
    ∧ hasJsonCT getTodosFailureResponse
    ∧ hasJsonCT (getTodoHandlerCore result)
    ∧ hasJsonCT getTodoFailureResponse
    ∧ hasJsonCT (updateTodoHandlerCore outcome)
    ∧ hasJsonCT (deleteTodoHandlerCore deleted)
    ∧ hasJsonCT deleteFailureResponse
    ∧ hasJsonCT (validationFailedResponse errs)
    ∧ hasJsonCT invalidJsonResponse
    ∧ hasJsonCT (errorResponse msg st)
    ∧ (hasJsonCT r → hasJsonCT (mergeCors r))
    ∧ ¬ hasJsonCT (createSuccessResponse t)
    ∧ ¬ hasJsonCT createFailureResponse
    ∧ ¬ hasJsonCT (mergeCors (createSuccessResponse t))
    ∧ ¬ hasJsonCT corsPreflightResponse := by
  refine ⟨?_, by decide, ?_, by decide, ?_, ?_, by decide, ?_, by decide, ?_, ?_, ?_, by decide, ?_, by decide⟩
  · simp [hasJsonCT, getTodosSuccessResponse, jsResponse, jsonHeaders]
  · cases result <;> simp [hasJsonCT, getTodoHandlerCore, getTodoSuccessResponse,
      todoNotFoundResponse, jsResponse, jsonHeaders]
  · rcases outcome with m | o
    · by_cases h : m = noValidFieldsMsg <;>
        simp [hasJsonCT, updateTodoHandlerCore, h, beq_iff_eq, jsResponse, jsonHeaders]
    · cases o <;> simp [hasJsonCT, updateTodoHandlerCore, todoNotFoundResponse,
        jsResponse, jsonHeaders]
  · cases deleted <;> simp [hasJsonCT, deleteTodoHandlerCore, todoNotFoundResponse,
      jsResponse, jsonHeaders]
  · simp [hasJsonCT, validationFailedResponse, jsResponse, jsonHeaders]
  · simp [hasJsonCT, errorResponse, jsResponse, jsonHeaders]
  · intro h
    unfold mergeCors
    split
    · exact h
    · refine List.mem_append.mpr (Or.inl (List.mem_filter.mpr ⟨h, ?_⟩))
      decide
  · simp [hasJsonCT, createSuccessResponse, jsResponse]
  · simp [hasJsonCT, mergeCors, hasHeader, createSuccessResponse, jsResponse, corsHeaders]

/-- C9 amended witness: the merge-preservation conjunct applied to the
concrete 200 response of the delete handler. -/
theorem claim_C9_amended_content_type_witness :
    hasJsonCT (mergeCors (deleteTodoHandlerCore true)) :=
  (claim_C9_amended_content_type [] sampleTodo none (Except.ok none) true [] "x" 500
      (deleteTodoHandlerCore true)).2.2.2.2.2.2.2.2.2.2.1 (by decide)

/-! ## C1: the update handler's outcome mapping -/

/-- C1: the update handler maps a returned row to 200 with that row as
data and a confirmation message, absence to 404, the specific
no-valid-fields throw to 400 surfacing that message as the error field,
and every other throw to 404; it never returns 500. -/
theorem claim_C1_update_handler_mapping (outcome : Except String (Option Todo)) :
    ((updateTodoHandlerCore outcome).status = 200
      ∨ (updateTodoHandlerCore outcome).status = 400
      ∨ (updateTodoHandlerCore outcome).status = 404)
    ∧ (updateTodoHandlerCore outcome).status ≠ 500
    ∧ (∀ t, outcome = Except.ok (some t) →
        (updateTodoHandlerCore outcome).status = 200
        ∧ (updateTodoHandlerCore outcome).body =
            some ⟨true, some (EnvData.one t), none, some "Todo updated successfully", none, none⟩)
    ∧ (outcome = Except.ok none →
        (updateTodoHandlerCore outcome).status = 404
        ∧ (updateTodoHandlerCore outcome).body =
            some ⟨false, none, some "Todo not found", none, none, none⟩)
    ∧ (outcome = Except.error noValidFieldsMsg →
        (updateTodoHandlerCore outcome).status = 400
        ∧ (updateTodoHandlerCore outcome).body =
            some ⟨false, none, some noValidFieldsMsg, none, none, none⟩)
    ∧ (∀ msg, outcome = Except.error msg → msg ≠ noValidFieldsMsg →
        (updateTodoHandlerCore outcome).status = 404) := by
  rcases outcome with m | o
  · by_cases h : m = noValidFieldsMsg
    · subst h
      simp [updateTodoHandlerCore, jsResponse, jsonHeaders]
    · simp [updateTodoHandlerCore, jsResponse, jsonHeaders, h,
        show (m == noValidFieldsMsg) = false from beq_eq_false_iff_ne.mpr h]
  · rcases o with _ | t <;>
      simp [updateTodoHandlerCore, todoNotFoundResponse, jsResponse, jsonHeaders]

/-- C1 witness: the four outcome shapes at concrete inputs. -/
theorem claim_C1_update_handler_mapping_witness :
    ((updateTodoHandlerCore (Except.ok (some sampleTodo))).status = 200
      ∧ (updateTodoHandlerCore (Except.ok (some sampleTodo))).body =
          some ⟨true, some (EnvData.one sampleTodo), none, some "Todo updated successfully", none, none⟩)
    ∧ (updateTodoHandlerCore (Except.ok none)).status = 404
    ∧ (updateTodoHandlerCore (Except.error noValidFieldsMsg)).status = 400
    ∧ (updateTodoHandlerCore (Except.error "db exploded")).status = 404 :=
  ⟨(claim_C1_update_handler_mapping (Except.ok (some sampleTodo))).2.2.1 sampleTodo rfl,
    ((claim_C1_update_handler_mapping (Except.ok none)).2.2.2.1 rfl).1,
    ((claim_C1_update_handler_mapping (Except.error noValidFieldsMsg)).2.2.2.2.1 rfl).1,
    (claim_C1_update_handler_mapping (Except.error "db exploded")).2.2.2.2.2 _ rfl (by decide)⟩

/-! ## C8: delete semantics -/

/-- A store whose ids are distinct is affected in at most one row by
`DELETE FROM todos WHERE id = ?`. -/
theorem deleteChanges_le_one (rows : List TodoRow) (id : Int)
    (h : (rows.map TodoRow.id).Nodup) : deleteChanges rows id ≤ 1 := by
  induction rows with
  | nil => simp [deleteChanges]
  | cons r rest ih =>
    rw [List.map_cons, List.nodup_cons] at h
    by_cases hr : r.id = id
    · have : (rest.filter (fun x => x.id == id)).length = 0 := by
        rw [List.length_eq_zero, List.filter_eq_nil_iff]
        intro x hx hbx
        exact h.1 (by
          rw [beq_iff_eq] at hbx
          rw [hr, ← hbx]
          exact List.mem_map_of_mem TodoRow.id hx)
      simp [deleteChanges, List.filter_cons, hr, this]
    · have := ih h.2
      simpa [deleteChanges, List.filter_cons, beq_eq_false_iff_ne.mpr hr] using this

/-- C8: `deleteTodo` returns a boolean that (for a store with distinct
ids) is true iff exactly one row was affected, never an error value;
deleting an id with no matching row yields false, which the handler maps
to the 404 not-found response; after the delete ran, a second delete of
the same id observes not-found; the handler only ever answers 200 or 404
on a boolean outcome. -/
theorem claim_C8_delete_semantics (rows : List TodoRow) (id : Int) :
    ((rows.map TodoRow.id).Nodup →
      (deleteTodo rows id = true ↔ deleteChanges rows id = 1))
    ∧ ((∀ r ∈ rows, r.id ≠ id) →
        deleteTodo rows id = false
        ∧ deleteTodoHandlerCore (deleteTodo rows id) = todoNotFoundResponse
        ∧ (deleteTodoHandlerCore (deleteTodo rows id)).status = 404)
    ∧ deleteTodo (deleteApply rows id) id = false
    ∧ (deleteTodoHandlerCore (deleteTodo (deleteApply rows id) id)).status = 404
    ∧ ((deleteTodoHandlerCore (deleteTodo rows id)).status = 200
        ∨ (deleteTodoHandlerCore (deleteTodo rows id)).status = 404) := by
  have hsecond : deleteTodo (deleteApply rows id) id = false := by
    have : (deleteApply rows id).filter (fun r => r.id == id) = [] := by
      rw [List.filter_eq_nil_iff]
      intro r hr
      have := (List.mem_filter.mp hr).2
      simp only [Bool.not_eq_true', beq_eq_false_iff_ne] at this
      simp [this]
    simp [deleteTodo, deleteChanges, this]
  refine ⟨?_, ?_, hsecond, by simp [hsecond, deleteTodoHandlerCore, todoNotFoundResponse, jsResponse], ?_⟩
  · intro h
    have hle := deleteChanges_le_one rows id h
    simp only [deleteTodo, decide_eq_true_iff]
    omega
  · intro h
    have hnil : rows.filter (fun r => r.id == id) = [] := by
      rw [List.filter_eq_nil_iff]
      intro r hr
      simp [beq_eq_false_iff_ne.mpr (h r hr)]
    have hfalse : deleteTodo rows id = false := by
      simp [deleteTodo, deleteChanges, hnil]
    exact ⟨hfalse, by simp [hfalse, deleteTodoHandlerCore], by simp [hfalse, deleteTodoHandlerCore, todoNotFoundResponse, jsResponse]⟩
  · cases hd : deleteTodo rows id <;>
      simp [deleteTodoHandlerCore, todoNotFoundResponse, jsResponse, jsonHeaders]

/-- C8 witness: the theorem applied to a concrete two-row store. -/
theorem claim_C8_delete_semantics_witness :
    (deleteTodo [⟨1, "a", "", 0, 1, 1⟩, ⟨2, "b", "", 1, 2, 2⟩] 1 = true ↔
      deleteChanges [⟨1, "a", "", 0, 1, 1⟩, ⟨2, "b", "", 1, 2, 2⟩] 1 = 1)
    ∧ (deleteTodo [⟨1, "a", "", 0, 1, 1⟩, ⟨2, "b", "", 1, 2, 2⟩] 7 = false
        ∧ deleteTodoHandlerCore (deleteTodo [⟨1, "a", "", 0, 1, 1⟩, ⟨2, "b", "", 1, 2, 2⟩] 7) = todoNotFoundResponse
        ∧ (deleteTodoHandlerCore (deleteTodo [⟨1, "a", "", 0, 1, 1⟩, ⟨2, "b", "", 1, 2, 2⟩] 7)).status = 404) :=
  ⟨(claim_C8_delete_semantics [⟨1, "a", "", 0, 1, 1⟩, ⟨2, "b", "", 1, 2, 2⟩] 1).1 (by decide),
    (claim_C8_delete_semantics [⟨1, "a", "", 0, 1, 1⟩, ⟨2, "b", "", 1, 2, 2⟩] 7).2.1 (by decide)⟩

/-! ## C7: list with optional completion filter -/

/-- C7: with a null filter, the list operation returns every todo (as a
permutation of the formatted store) ordered by `created_at` descending;
with a boolean filter it returns exactly the todos whose stored
`completed` integer equals the filter encoded as 1/0, in the same order;
and it returns the empty list (a list, never a null) when nothing
matches. -/
theorem claim_C7_list_semantics (rows : List TodoRow) (b : Bool) :
    (getAllTodos rows none).Perm (rows.map formatTodo)
    ∧ List.Sorted (fun x y : Todo => y.created_at ≤ x.created_at) (getAllTodos rows none)
    ∧ (getAllTodos rows (some b)).Perm
        ((rows.filter (fun r => r.completed == (if b then (1 : Int) else 0))).map formatTodo)
    ∧ List.Sorted (fun x y : Todo => y.created_at ≤ x.created_at) (getAllTodos rows (some b))
    ∧ (∀ t, t ∈ getAllTodos rows (some b) ↔
        ∃ r ∈ rows, r.completed = (if b then (1 : Int) else 0) ∧ t = formatTodo r)
    ∧ ((∀ r ∈ rows, r.completed ≠ (if b then (1 : Int) else 0)) →
        getAllTodos rows (some b) = []) := by
  refine ⟨?_, ?_, ?_, ?_, ?_, ?_⟩
  · exact (List.perm_insertionSort createdDesc rows).map formatTodo
  · exact List.Pairwise.map formatTodo (fun x y h => h)
      (List.sorted_insertionSort createdDesc rows)
  · exact (List.perm_insertionSort createdDesc _).map formatTodo
  · exact List.Pairwise.map formatTodo (fun x y h => h)
      (List.sorted_insertionSort createdDesc _)
  · intro t
    constructor
    · intro ht
      rcases List.mem_map.mp ht with ⟨r, hr, rfl⟩
      have hr2 := (List.perm_insertionSort createdDesc _).mem_iff.mp hr
      rcases List.mem_filter.mp hr2 with ⟨hmem, hpred⟩
      exact ⟨r, hmem, beq_iff_eq.mp hpred, rfl⟩
    · rintro ⟨r, hmem, hpred, rfl⟩
      refine List.mem_map.mpr ⟨r, ?_, rfl⟩
      exact (List.perm_insertionSort createdDesc _).mem_iff.mpr
        (List.mem_filter.mpr ⟨hmem, beq_iff_eq.mpr hpred⟩)
  · intro h
    have : rows.filter (fun r => r.completed == (if b then (1 : Int) else 0)) = [] := by
      rw [List.filter_eq_nil_iff]
      intro r hr
      simp [beq_eq_false_iff_ne.mpr (h r hr)]
    simp [getAllTodos, this, dbSelectOrdered, List.insertionSort]

/-- C7 witness: the membership characterization and the no-match clause at
a concrete store. -/
theorem claim_C7_list_semantics_witness :
    (formatTodo ⟨2, "b", "", 1, 3, 3⟩ ∈
        getAllTodos [⟨1, "a", "", 0, 1, 1⟩, ⟨2, "b", "", 1, 3, 3⟩] (some true) ↔
      ∃ r ∈ [⟨1, "a", "", 0, 1, 1⟩, (⟨2, "b", "", 1, 3, 3⟩ : TodoRow)],
        r.completed = (if true then (1 : Int) else 0)
        ∧ formatTodo ⟨2, "b", "", 1, 3, 3⟩ = formatTodo r)
    ∧ getAllTodos [⟨1, "a", "", 0, 1, 1⟩] (some true) = [] :=
  ⟨(claim_C7_list_semantics [⟨1, "a", "", 0, 1, 1⟩, ⟨2, "b", "", 1, 3, 3⟩] true).2.2.2.2.1
      (formatTodo ⟨2, "b", "", 1, 3, 3⟩),
    (claim_C7_list_semantics [⟨1, "a", "", 0, 1, 1⟩] true).2.2.2.2.2 (by decide)⟩

/-! ## C2: assignment building in updateTodo -/

/-- The entry-wise characterization of the for-loop in `updateTodo`. -/
theorem buildUpdate_eq_filterMap (updates : JObj) :
    buildUpdate updates = updates.filterMap (fun kv =>
      if allowedFields.contains kv.1 && !(kv.2 == JVal.undef) then
        some (kv.1,
          if kv.1 == "completed" then JVal.num (if jsTruthy kv.2 then 1 else 0) else kv.2)
      else none) := by
  induction updates with
  | nil => rfl
  | cons kv rest ih =>
    rcases kv with ⟨k, v⟩
    by_cases h : (allowedFields.contains k && !(v == JVal.undef)) = true
    · simp only [buildUpdate, List.filterMap_cons, if_pos h, ih]
    · simp only [buildUpdate, List.filterMap_cons, if_neg h, ih]

/-- C2: the persistence update builds assignments exactly from the
allow-listed keys whose values are defined (other keys are silently
ignored), coerces a boolean `completed` to the integer 1/0 (more
generally, every built `completed` assignment is 0 or 1), fails with the
distinguishable no-valid-fields error when the assignment set is empty,
and every successful update carries the refreshed `updated_at`. -/
theorem claim_C2_update_building (rows : List TodoRow) (now : Nat) (id : Int)
    (updates : JObj) :
    (∀ kv ∈ buildUpdate updates, kv.1 ∈ allowedFields)
    ∧ (∀ k v, (k, v) ∈ updates →
        (allowedFields.contains k && !(v == JVal.undef)) = true →
        (k, if k == "completed" then JVal.num (if jsTruthy v then 1 else 0) else v)
          ∈ buildUpdate updates)
    ∧ (∀ kv ∈ buildUpdate updates, kv.1 = "completed" →
        kv.2 = JVal.num 0 ∨ kv.2 = JVal.num 1)
    ∧ (∀ b : Bool, buildUpdate [("completed", JVal.bool b)] =
        [("completed", JVal.num (if b then 1 else 0))])
    ∧ ((∀ kv ∈ updates, (allowedFields.contains kv.1 && !(kv.2 == JVal.undef)) = false) →
        buildUpdate updates = [])
    ∧ (buildUpdate updates = [] →
        updateTodo rows now id updates = Except.error noValidFieldsMsg)
    ∧ (∀ o : Option Todo,
        (Except.error noValidFieldsMsg : Except String (Option Todo)) ≠ Except.ok o)
    ∧ (∀ t, updateTodo rows now id updates = Except.ok (some t) → t.updated_at = now) := by
  refine ⟨?_, ?_, ?_, ?_, ?_, ?_, ?_, ?_⟩
  · intro kv hkv
    rw [buildUpdate_eq_filterMap] at hkv
    rcases List.mem_filterMap.mp hkv with ⟨a, _, ha⟩
    by_cases h : (allowedFields.contains a.1 && !(a.2 == JVal.undef)) = true
    · rw [if_pos h] at ha
      have hk : kv.1 = a.1 := by
        cases ha
        rfl
      rw [hk]
      have := (Bool.and_eq_true _ _).mp h
      simpa [allowedFields, List.contains, List.elem_iff] using this.1
    · rw [if_neg h] at ha
      cases ha
  · intro k v hmem h
    rw [buildUpdate_eq_filterMap]
    exact List.mem_filterMap.mpr ⟨(k, v), hmem, by rw [if_pos h]⟩
  · intro kv hkv hk
    rw [buildUpdate_eq_filterMap] at hkv
    rcases List.mem_filterMap.mp hkv with ⟨a, _, ha⟩
    by_cases h : (allowedFields.contains a.1 && !(a.2 == JVal.undef)) = true
    · rw [if_pos h] at ha
      have hfst : kv.1 = a.1 := by cases ha; rfl
      have hsnd : kv.2 =
          (if a.1 == "completed" then JVal.num (if jsTruthy a.2 then 1 else 0) else a.2) := by
        cases ha
        rfl
      rw [hfst] at hk
      rw [hsnd, hk]
      simp only [beq_self_eq_true, if_true]
      cases jsTruthy a.2 <;> simp
    · rw [if_neg h] at ha
      cases ha
  · intro b
    cases b <;> rfl
  · intro h
    rw [buildUpdate_eq_filterMap, List.filterMap_eq_nil_iff]
    intro a ha
    rw [if_neg]
    intro hc
    rw [h a ha] at hc
    exact Bool.false_ne_true hc
  · intro h
    simp [updateTodo, h, noValidFieldsMsg]
  · intro o h
    cases h
  · intro t h
    unfold updateTodo at h
    by_cases hb : (buildUpdate updates).isEmpty
    · simp [hb] at h
    · simp only [hb, Bool.false_eq_true, if_false] at h
      cases hf : rows.find? (fun r => r.id == id) with
      | none => rw [hf] at h; cases h
      | some r =>
        rw [hf] at h
        have := Except.ok.inj h
        have h2 := Option.some.inj this
        rw [← h2]
        rfl

/-- C2 witness: the characterization at a concrete updates object mixing
an allow-listed boolean, an ignored unknown key, and an undefined value;
plus the thrown error and refreshed timestamp at concrete stores. -/
theorem claim_C2_update_building_witness :
    (("completed",
        if ("completed" : String) == "completed" then
          JVal.num (if jsTruthy (JVal.bool true) then 1 else 0)
        else JVal.bool true)
      ∈ buildUpdate [("completed", JVal.bool true), ("foo", JVal.str "x"), ("title", JVal.undef)])
    ∧ buildUpdate [("foo", JVal.str "x"), ("title", JVal.undef)] = []
    ∧ updateTodo [] 9 1 [("foo", JVal.str "x"), ("title", JVal.undef)] =
        Except.error noValidFieldsMsg
    ∧ (⟨1, "t", "d", true, 2, 9⟩ : Todo).updated_at = 9 :=
  ⟨(claim_C2_update_building [] 9 1
        [("completed", JVal.bool true), ("foo", JVal.str "x"), ("title", JVal.undef)]).2.1
      "completed" (JVal.bool true) (by decide) (by decide),
    (claim_C2_update_building [] 9 1 [("foo", JVal.str "x"), ("title", JVal.undef)]).2.2.2.2.1
      (by decide),
    (claim_C2_update_building [] 9 1 [("foo", JVal.str "x"), ("title", JVal.undef)]).2.2.2.2.2.1
      (by decide),
    (claim_C2_update_building [⟨1, "t", "d", 0, 2, 2⟩] 9 1
        [("completed", JVal.bool true), ("foo", JVal.str "x"), ("title", JVal.undef)]).2.2.2.2.2.2.2
      ⟨1, "t", "d", true, 2, 9⟩ rfl⟩

/-! ## C6: boolean round-trip through integer storage -/

/-- C6: coercing a boolean to the stored integer and normalizing back via
`formatTodo` recovers the boolean (both abstractly and through an actual
`updateTodo` of the `completed` field); and every row any read path
returns (list, get-by-id, create, update) is the `formatTodo`
normalization of a stored row, so callers always receive `completed` as a
boolean. -/
theorem claim_C6_completed_roundtrip :
    (∀ (r : TodoRow) (b : Bool),
        (formatTodo { r with completed := if b then 1 else 0 }).completed = b)
    ∧ (∀ (rows : List TodoRow) (now : Nat) (id : Int) (b : Bool) (t : Todo),
        updateTodo rows now id [("completed", JVal.bool b)] = Except.ok (some t) →
          t.completed = b)
    ∧ (∀ (rows : List TodoRow) (c : Option Bool) (t : Todo),
        t ∈ getAllTodos rows c → ∃ r ∈ rows, t = formatTodo r)
    ∧ (∀ (rows : List TodoRow) (id : Int) (t : Todo),
        getTodoById rows id = some t → ∃ r ∈ rows, t = formatTodo r)
    ∧ (∀ (nextId : Int) (now : Nat) (title : String) (d : Option String),
        createTodo nextId now title d = formatTodo (insertedRow nextId now title d)
        ∧ (createTodo nextId now title d).completed = false)
    ∧ (∀ (rows : List TodoRow) (now : Nat) (id : Int) (updates : JObj) (t : Todo),
        updateTodo rows now id updates = Except.ok (some t) →
          ∃ r : TodoRow, t = formatTodo r) := by
  have hread : ∀ (rows : List TodoRow) (now : Nat) (id : Int) (updates : JObj) (t : Todo),
      updateTodo rows now id updates = Except.ok (some t) →
        ∃ r : TodoRow, t = formatTodo r := by
    intro rows now id updates t h
    unfold updateTodo at h
    by_cases hb : (buildUpdate updates).isEmpty
    · simp [hb] at h
    · simp only [hb, Bool.false_eq_true, if_false] at h
      cases hf : rows.find? (fun r => r.id == id) with
      | none => rw [hf] at h; cases h
      | some r =>
        rw [hf] at h
        exact ⟨_, (Option.some.inj (Except.ok.inj h)).symm⟩
  refine ⟨?_, ?_, ?_, ?_, ?_, hread⟩
  · intro r b
    cases b <;> rfl
  · intro rows now id b t h
    cases hf : rows.find? (fun r => r.id == id) with
    | none =>
      cases b <;>
        simp [updateTodo, buildUpdate, allowedFields, jsTruthy, hf] at h
    | some r =>
      cases b <;>
        · simp [updateTodo, buildUpdate, allowedFields, jsTruthy, hf,
            applyAssignments, applyAssign] at h
          rw [← h]
          rfl
  · intro rows c t ht
    cases c with
    | none =>
      rcases List.mem_map.mp ht with ⟨r, hr, rfl⟩
      exact ⟨r, (List.perm_insertionSort createdDesc rows).mem_iff.mp hr, rfl⟩
    | some b =>
      rcases List.mem_map.mp ht with ⟨r, hr, rfl⟩
      have hr2 := (List.perm_insertionSort createdDesc _).mem_iff.mp hr
      exact ⟨r, (List.mem_filter.mp hr2).1, rfl⟩
  · intro rows id t h
    rcases Option.map_eq_some'.mp h with ⟨r, hr, rfl⟩
    exact ⟨r, List.mem_of_find?_eq_some hr, rfl⟩
  · intro nextId now title d
    exact ⟨rfl, rfl⟩

/-- C6 witness: the round trip observed through a concrete store. -/
theorem claim_C6_completed_roundtrip_witness :
    ((⟨1, "t", "d", true, 2, 9⟩ : Todo).completed = true)
    ∧ (∃ r ∈ [(⟨1, "t", "d", 1, 2, 2⟩ : TodoRow)],
        formatTodo ⟨1, "t", "d", 1, 2, 2⟩ = formatTodo r)
    ∧ (∃ r ∈ [(⟨1, "t", "d", 1, 2, 2⟩ : TodoRow)],
        (⟨1, "t", "d", true, 2, 2⟩ : Todo) = formatTodo r) :=
  ⟨claim_C6_completed_roundtrip.2.1 [⟨1, "t", "d", 0, 2, 2⟩] 9 1 true
      ⟨1, "t", "d", true, 2, 9⟩ rfl,
    claim_C6_completed_roundtrip.2.2.1 [⟨1, "t", "d", 1, 2, 2⟩] none
      (formatTodo ⟨1, "t", "d", 1, 2, 2⟩) (by decide),
    claim_C6_completed_roundtrip.2.2.2.1 [⟨1, "t", "d", 1, 2, 2⟩] 1
      ⟨1, "t", "d", true, 2, 2⟩ rfl⟩

/-! ## C3: non-short-circuit error accumulation -/

/-- C3: create-validation evaluates all fields in one pass — its error
list is exactly the title rule's errors followed by the description
rule's errors (declaration order) followed by unknown-key errors, so each
field's violations appear regardless of the others; in particular the
payload with an empty title and a 1001-character description yields both
violations together, a details list of length at least 2. -/
theorem claim_C3_error_accumulation :
    (∀ o : JObj, (validateObj createSchema o).1 =
        fieldErrors createTitleField o ++ fieldErrors createDescField o
          ++ unknownKeyErrors createSchema o)
    ∧ (∀ o : JObj, ∀ e ∈ fieldErrors createTitleField o,
        e ∈ (validateObj createSchema o).1)
    ∧ (∀ o : JObj, ∀ e ∈ fieldErrors createDescField o,
        e ∈ (validateObj createSchema o).1)
    ∧ (validateObj createSchema
        [("title", JVal.str ""), ("description", repChar 1001)]).1 =
      [⟨"title", "Title is required"⟩,
        ⟨"description", "Description must be less than 1000 characters"⟩]
    ∧ 2 ≤ (validateObj createSchema
        [("title", JVal.str ""), ("description", repChar 1001)]).1.length := by
  have hshape : ∀ o : JObj, (validateObj createSchema o).1 =
      fieldErrors createTitleField o ++ fieldErrors createDescField o
        ++ unknownKeyErrors createSchema o := by
    intro o
    simp [validateObj, createSchema, minKeyErrors]
  refine ⟨hshape, ?_, ?_, ?_, ?_⟩
  · intro o e he
    rw [hshape o]
    exact List.mem_append.mpr (Or.inl (List.mem_append.mpr (Or.inl he)))
  · intro o e he
    rw [hshape o]
    exact List.mem_append.mpr (Or.inl (List.mem_append.mpr (Or.inr he)))
  · set_option maxRecDepth 8192 in decide
  · set_option maxRecDepth 8192 in decide

/-- C3 witness: both accumulation components at the concrete payload. -/
theorem claim_C3_error_accumulation_witness :
    (⟨"title", "Title is required"⟩ : FieldError)
      ∈ (validateObj createSchema
          [("title", JVal.str ""), ("description", repChar 1001)]).1
    ∧ (⟨"description", "Description must be less than 1000 characters"⟩ : FieldError)
      ∈ (validateObj createSchema
          [("title", JVal.str ""), ("description", repChar 1001)]).1 :=
  ⟨claim_C3_error_accumulation.2.1 [("title", JVal.str ""), ("description", repChar 1001)]
      ⟨"title", "Title is required"⟩ (by set_option maxRecDepth 8192 in decide),
    claim_C3_error_accumulation.2.2.1 [("title", JVal.str ""), ("description", repChar 1001)]
      ⟨"description", "Description must be less than 1000 characters"⟩
      (by set_option maxRecDepth 8192 in decide)⟩

/-! ## C5: the middleware interceptor trichotomy -/

/-- C5: the interceptor either attaches the normalized value and returns
no response (success, with the attachment target selected by the source),
or returns 400 with the `Validation failed` envelope listing one entry
per accumulated error, or — for a body whose JSON parse fails — returns
the distinct 400 `Invalid JSON in request body` envelope. -/
theorem claim_C5_middleware_trichotomy (s : ObjSchema) (prop : Source) (req : Request) :
    (∀ d, dataOf prop req = some d → (validateObj s d).1 = [] →
      (prop = Source.body →
        validate s prop req = (none, { req with validatedData := some (validateObj s d).2 }))
      ∧ (prop ≠ Source.body →
        validate s prop req = (none, { req with validatedParams := some (validateObj s d).2 })))
    ∧ (∀ d, dataOf prop req = some d → (validateObj s d).1 ≠ [] →
        validate s prop req = (some (validationFailedResponse (validateObj s d).1), req)
        ∧ (validationFailedResponse (validateObj s d).1).status = 400
        ∧ (validationFailedResponse (validateObj s d).1).body =
            some ⟨false, none, some "Validation failed", none, none, some (validateObj s d).1⟩)
    ∧ (dataOf prop req = none →
        validate s prop req = (some invalidJsonResponse, req)
        ∧ invalidJsonResponse.status = 400
        ∧ invalidJsonResponse.body =
            some ⟨false, none, some "Invalid JSON in request body", none, none, none⟩)
    ∧ (prop = Source.body → req.rawBody = none → dataOf prop req = none)
    ∧ (∀ errs, invalidJsonResponse ≠ validationFailedResponse errs) := by
  refine ⟨?_, ?_, ?_, ?_, ?_⟩
  · intro d hd he
    have hemp : (validateObj s d).1.isEmpty = true := by
      rw [List.isEmpty_iff]
      exact he
    constructor
    · intro hp
      subst hp
      simp [validate, hd, hemp]
    · intro hp
      cases prop with
      | body => exact absurd rfl hp
      | params => simp [validate, dataOf] at hd; simp [validate, dataOf, hd, hemp]
      | query => simp [validate, dataOf] at hd; simp [validate, dataOf, hd, hemp]
  · intro d hd he
    have hemp : (validateObj s d).1.isEmpty = false := by
      rw [Bool.eq_false_iff, Ne, List.isEmpty_iff]
      exact he
    refine ⟨?_, rfl, rfl⟩
    cases prop with
    | body => simp [validate, hd, hemp]
    | params => simp [validate, dataOf] at hd; simp [validate, dataOf, hd, hemp]
    | query => simp [validate, dataOf] at hd; simp [validate, dataOf, hd, hemp]
  · intro hnone
    refine ⟨?_, rfl, rfl⟩
    cases prop with
    | body => simp [validate, hnone]
    | params => simp [dataOf] at hnone
    | query => simp [dataOf] at hnone
  · intro hp hb
    subst hp
    simpa [dataOf] using hb
  · intro errs h
    have := congrArg HttpResponse.body h
    simp [invalidJsonResponse, validationFailedResponse, jsResponse, jsonHeaders] at this

/-- C5 witness: a success, a field-failure and a malformed-body run of the
interceptor on concrete requests. -/
theorem claim_C5_middleware_trichotomy_witness :
    validate idSchema Source.params ⟨none, [("id", JVal.str "1")], [], none, none⟩ =
      (none, { (⟨none, [("id", JVal.str "1")], [], none, none⟩ : Request) with
        validatedParams := some (validateObj idSchema [("id", JVal.str "1")]).2 })
    ∧ validate idSchema Source.params ⟨none, [("id", JVal.str "abc")], [], none, none⟩ =
        (some (validationFailedResponse
          (validateObj idSchema [("id", JVal.str "abc")]).1),
          ⟨none, [("id", JVal.str "abc")], [], none, none⟩)
    ∧ validate updateSchema Source.body ⟨none, [], [], none, none⟩ =
        (some invalidJsonResponse, ⟨none, [], [], none, none⟩) :=
  ⟨((claim_C5_middleware_trichotomy idSchema Source.params
        ⟨none, [("id", JVal.str "1")], [], none, none⟩).1
      [("id", JVal.str "1")] rfl (by decide)).2 (by decide),
    ((claim_C5_middleware_trichotomy idSchema Source.params
        ⟨none, [("id", JVal.str "abc")], [], none, none⟩).2.1
      [("id", JVal.str "abc")] rfl (by decide)).1,
    ((claim_C5_middleware_trichotomy updateSchema Source.body
        ⟨none, [], [], none, none⟩).2.2.1 rfl).1⟩

/-! ## C10: the no-valid-fields throw is unreachable after validation -/

/-- Each conversion of the update schema maps a defined value to a defined
value. -/
theorem updateSchema_convert_defined :
    ∀ f ∈ updateSchema.fields, ∀ v : JVal, v ≠ JVal.undef → f.convert v ≠ JVal.undef := by
  intro f hf v hv
  simp only [updateSchema, List.mem_cons, List.not_mem_nil, or_false] at hf
  rcases hf with rfl | rfl | rfl
  · simpa [convertNone] using hv
  · simpa [convertNone] using hv
  · cases v with
    | str s =>
      simp only [convertCompleted]
      split
      · simp
      · split <;> simp
    | num n => simp [convertCompleted]
    | bool b => simp [convertCompleted]
    | null => simp [convertCompleted]
    | undef => exact absurd rfl hv

/-- Successful update-validation yields a nonempty normalized object whose
keys are all allow-listed and whose values are all defined. -/
theorem updateValidation_success_shape (d : JObj)
    (he : (validateObj updateSchema d).1 = []) :
    (validateObj updateSchema d).2 ≠ []
    ∧ ∀ kv ∈ (validateObj updateSchema d).2,
        kv.1 ∈ allowedFields ∧ kv.2 ≠ JVal.undef := by
  have hsplit : ((updateSchema.fields.map (fun f => fieldErrors f d)).flatten
      ++ unknownKeyErrors updateSchema d) ++ minKeyErrors updateSchema d = [] := he
  rcases List.append_eq_nil.mp hsplit with ⟨h12, hmin⟩
  rcases List.append_eq_nil.mp h12 with ⟨_, hunk⟩
  have hpresent : presentEntries d ≠ [] := by
    intro hnil
    rw [minKeyErrors, hnil] at hmin
    simp [updateSchema] at hmin
  have hallow : ∀ kv ∈ presentEntries d,
      (declaredKeys updateSchema).contains kv.1 = true := by
    intro kv hkv
    have := List.filterMap_eq_nil_iff.mp hunk kv hkv
    by_cases hc : (declaredKeys updateSchema).contains kv.1 = true
    · exact hc
    · rw [if_neg hc] at this
      cases this
  constructor
  · show normalizeObj updateSchema d ≠ []
    rw [normalizeObj]
    intro hnil
    exact hpresent (List.map_eq_nil_iff.mp hnil)
  · show ∀ kv ∈ normalizeObj updateSchema d, _
    intro kv hkv
    rw [normalizeObj] at hkv
    rcases List.mem_map.mp hkv with ⟨a, ha, rfl⟩
    have hkey : a.1 ∈ allowedFields := by
      have hmem : a.1 ∈ declaredKeys updateSchema := List.elem_iff.mp (hallow a ha)
      simpa [declaredKeys, updateSchema, allowedFields] using hmem
    have hdef : a.2 ≠ JVal.undef := by
      have := (List.mem_filter.mp ha).2
      simp only [Bool.not_eq_true', beq_eq_false_iff_ne] at this
      exact this
    cases hfind : updateSchema.fields.find? (fun f => f.key == a.1) with
    | none =>
      simp only [hfind]
      exact ⟨hkey, hdef⟩
    | some f =>
      simp only [hfind]
      exact ⟨hkey,
        updateSchema_convert_defined f (List.mem_of_find?_eq_some hfind) a.2 hdef⟩

/-- C10: whenever the update-validation middleware succeeds on the PATCH
chain, the attached validated data is a nonempty object of allow-listed,
defined fields; consequently `updateTodo` can never throw its
no-valid-fields error on it, and the chain's response is never the
handler's 400. -/
theorem claim_C10_patch_chain_safety (rows : List TodoRow) (now : Nat)
    (req req1 req2 : Request)
    (h1 : validate idSchema Source.params req = (none, req1))
    (h2 : validate updateSchema Source.body req1 = (none, req2)) :
    ∃ v, req2.validatedData = some v
      ∧ v ≠ []
      ∧ (∀ kv ∈ v, kv.1 ∈ allowedFields ∧ kv.2 ≠ JVal.undef)
      ∧ buildUpdate v ≠ []
      ∧ (∀ (id : Int) (e : String), updateTodo rows now id v ≠ Except.error e)
      ∧ (patchChain rows now req).status ≠ 400 := by
  rcases hb : req1.rawBody with _ | d
  · rw [validate] at h2
    simp [dataOf, hb] at h2
  · rcases hemp : (validateObj updateSchema d).1.isEmpty with _ | _
    · simp [validate, dataOf, hb, hemp] at h2
    · have he : (validateObj updateSchema d).1 = [] := List.isEmpty_iff.mp hemp
      rcases updateValidation_success_shape d he with ⟨hne, hshape⟩
      have h2' := h2
      simp [validate, dataOf, hb, hemp] at h2'
      have hvdata : req2.validatedData = some (validateObj updateSchema d).2 := by
        rw [← h2']
      set v := (validateObj updateSchema d).2 with hvdef
      have hbuild : buildUpdate v ≠ [] := by
        rcases hv : v with _ | ⟨⟨k, w⟩, rest⟩
        · exact absurd hv hne
        · have hsh := hshape (k, w) (by rw [hv]; exact List.mem_cons_self _ rest)
          have hcond : (allowedFields.contains k && !(w == JVal.undef)) = true := by
            rw [Bool.and_eq_true]
            exact ⟨List.elem_iff.mpr hsh.1, by simp [hsh.2]⟩
          simp only [buildUpdate]
          rw [if_pos hcond]
          simp
      have hnoerr : ∀ (id : Int) (e : String), updateTodo rows now id v ≠ Except.error e := by
        intro id e hcontra
        rw [updateTodo] at hcontra
        have hempty : (buildUpdate v).isEmpty = false := by
          rw [Bool.eq_false_iff, Ne, List.isEmpty_iff]
          exact hbuild
        rw [hempty] at hcontra
        simp only [Bool.false_eq_true, if_false] at hcontra
        cases hf : rows.find? (fun r => r.id == id) with
        | none => rw [hf] at hcontra; cases hcontra
        | some r => rw [hf] at hcontra; cases hcontra
      refine ⟨v, hvdata, hne, hshape, hbuild, hnoerr, ?_⟩
      have hchain : patchChain rows now req =
          updateTodoHandlerCore
            (updateTodo rows now ((handlerId req2).getD (-1))
              (req2.validatedData.getD (req2.rawBody.getD []))) := by
        simp only [patchChain, h1, h2]
      rw [hchain, hvdata]
      rcases hu : updateTodo rows now ((handlerId req2).getD (-1)) ((some v).getD (req2.rawBody.getD [])) with e | o
      · exact absurd hu (hnoerr _ e)
      · rcases o with _ | t
        · simp [updateTodoHandlerCore, todoNotFoundResponse, jsResponse, jsonHeaders]
        · simp [updateTodoHandlerCore, jsResponse, jsonHeaders]

/-- C10 witness: the chain run on a concrete valid PATCH request carrying
a title update for id 1. -/
theorem claim_C10_patch_chain_safety_witness :
    ∃ v, (Request.mk (some [("title", JVal.str "x")]) [("id", JVal.str "1")] []
        (some [("title", JVal.str "x")]) (some [("id", JVal.num 1)])).validatedData = some v
      ∧ v ≠ []
      ∧ (∀ kv ∈ v, kv.1 ∈ allowedFields ∧ kv.2 ≠ JVal.undef)
      ∧ buildUpdate v ≠ []
      ∧ (∀ (id : Int) (e : String), updateTodo [] 0 id v ≠ Except.error e)
      ∧ (patchChain [] 0
          (Request.mk (some [("title", JVal.str "x")]) [("id", JVal.str "1")] [] none none)).status ≠ 400 :=
  claim_C10_patch_chain_safety [] 0
    (Request.mk (some [("title", JVal.str "x")]) [("id", JVal.str "1")] [] none none)
    (Request.mk (some [("title", JVal.str "x")]) [("id", JVal.str "1")] [] none
      (some [("id", JVal.num 1)]))
    (Request.mk (some [("title", JVal.str "x")]) [("id", JVal.str "1")] []
      (some [("title", JVal.str "x")]) (some [("id", JVal.num 1)]))
    (by decide) (by decide)

end GitHooks
